import Mathlib

/-!
Verification development for the FLUPS pencil-decomposed Poisson solver.

The definitions below are a shallow embedding of the C++ sources of the
repository (src/src/Solver.cpp, src/src/Topology.cpp, src/src/SwitchTopo.cpp,
src/src/SwitchTopo_a2a.cpp, src/src/SwitchTopo_nb.cpp,
src/src/green_functions.hpp, and the header src/unnamed/part_001 alias
SwitchTopo.hpp).  Machine integers are modelled by Nat or Int, double values
that are only moved or multiplied are modelled by Rat or by Nat labels,
buffers by lists, and MPI collectives by explicit per-rank data.  Each
definition cites the source lines it embeds; definitions for repository code
that is not part of the sources at hand (lost headers) carry a comment
starting with "Modelled from the spec".
-/

namespace Flups

/-! ## Topology padded sizes (Topology.cpp) -/

/-- Padded per-process memory count along the fast axis, from the
id == _axis branch of Topology::cmpt_sizes (Topology.cpp lines 98-115):
modulo = (nloc * nf * sizeof(double)) % alignment,
delta  = (alignment - modulo) / sizeof(double),
nmem   = nloc + (modulo == 0 ? 0 : delta / nf),
with sizeof(double) = 8.  Every construction or mutation of a Topology
(constructor line 86, change_comm line 139, and the real/complex toggle of the
header) ends by recomputing the sizes through this computation. -/
def cmpt_sizes_axis (nloc nf alignment : Nat) : Nat :=
  let modulo := (nloc * nf * 8) % alignment
  let delta := (alignment - modulo) / 8
  nloc + (if modulo = 0 then 0 else delta / nf)

/-- C6: for every constructed topology (including after the real/complex toggle
and after a communicator change), the padded memory count along the fast axis
times nf times sizeof(double) is a multiple of the configured alignment, hence
the whole per-process buffer byte size (that line size times the two outer
extents and lda) is a multiple of the alignment.  The hypothesis delimits the
alignments the solver configures: alignments that are a multiple of
nf * sizeof(double) or that divide nf * sizeof(double) (the solver only builds
topologies with alignments that are multiples of sizeof(double),
Solver.cpp lines 50-65, 672, 737; nf is 1 or 2). -/
theorem c6_topology_alignment (nloc nf alignment : Nat)
    (hpos : 0 < alignment)
    (hdvd : (nf * 8) % alignment = 0 ∨ alignment % (nf * 8) = 0) :
    (cmpt_sizes_axis nloc nf alignment * nf * 8) % alignment = 0 ∧
    ∀ rest, (cmpt_sizes_axis nloc nf alignment * nf * 8 * rest) % alignment = 0 := by
  have main : (cmpt_sizes_axis nloc nf alignment * nf * 8) % alignment = 0 := by
    rcases hdvd with hdvd | hdvd
    · -- alignment divides nf * 8, hence also nloc * nf * 8: no padding is added
      have hA : alignment ∣ nf * 8 := Nat.dvd_of_mod_eq_zero hdvd
      have hAm : alignment ∣ nloc * nf * 8 := by
        rcases hA with ⟨c, hc⟩
        exact ⟨nloc * c, by rw [Nat.mul_assoc, hc]; ring⟩
      have hmod : (nloc * nf * 8) % alignment = 0 := Nat.mod_eq_zero_of_dvd hAm
      simp only [cmpt_sizes_axis, hmod, if_pos rfl, Nat.add_zero]
      exact hmod
    · -- nf * 8 divides the alignment
      have h8 : nf * 8 ∣ alignment := Nat.dvd_of_mod_eq_zero hdvd
      set m := nloc * nf * 8 with hm
      set r := m % alignment with hr
      by_cases hzero : r = 0
      · simp only [cmpt_sizes_axis, ← hm, ← hr, hzero, if_pos rfl, Nat.add_zero]
        exact hzero
      · have h8m : nf * 8 ∣ m := ⟨nloc, by rw [hm]; ring⟩
        have h8r : nf * 8 ∣ r := by
          rw [hr]
          exact (Nat.dvd_mod_iff h8).mpr h8m
        have hrlt : r < alignment := Nat.mod_lt _ hpos
        have h8sub : nf * 8 ∣ (alignment - r) := Nat.dvd_sub' h8 h8r
        have hdiv : (alignment - r) / 8 / nf = (alignment - r) / (8 * nf) :=
          Nat.div_div_eq_div_mul _ _ _
        have hmul8 : 8 * nf ∣ (alignment - r) := by rwa [Nat.mul_comm 8 nf]
        have hcancel : (alignment - r) / (8 * nf) * (8 * nf) = alignment - r :=
          Nat.div_mul_cancel hmul8
        have hexp : cmpt_sizes_axis nloc nf alignment * nf * 8
            = m + (alignment - r) := by
          simp only [cmpt_sizes_axis, ← hm, ← hr, if_neg hzero]
          rw [Nat.add_mul, Nat.add_mul, hdiv]
          have : (alignment - r) / (8 * nf) * nf * 8
              = (alignment - r) / (8 * nf) * (8 * nf) := by ring
          rw [this, hcancel]
        rw [hexp]
        have hsplit : alignment * (m / alignment) + r = m := by
          have := Nat.div_add_mod m alignment
          omega
        have : m + (alignment - r) = alignment * (m / alignment + 1) := by
          rw [Nat.mul_add, Nat.mul_one]
          omega
        rw [this]
        exact Nat.mul_mod_right _ _
  refine ⟨main, fun rest => ?_⟩
  have hd : alignment ∣ cmpt_sizes_axis nloc nf alignment * nf * 8 :=
    Nat.dvd_of_mod_eq_zero main
  exact Nat.mod_eq_zero_of_dvd (Dvd.dvd.mul_right hd rest)

/-- Closed instance of the alignment invariant: nloc = 5, nf = 1,
alignment = 16 bytes gives a padded line of 6 doubles, 48 bytes. -/
theorem c6_topology_alignment_witness :
    0 < 16 ∧ ((1 * 8) % 16 = 0 ∨ 16 % (1 * 8) = 0) ∧
    (cmpt_sizes_axis 5 1 16 * 1 * 8) % 16 = 0 :=
  ⟨by decide, Or.inr (by decide),
    (c6_topology_alignment 5 1 16 (by decide) (Or.inr (by decide))).1⟩

/-! ## Plan ordering (Solver.cpp, Solver::_sort_plans) -/

/-- Plan as seen by the sorter: the category priority returned by
plan->type() paired with an identifying payload (its direction index). -/
abbrev Plan := Int × Nat

/-- Reordering performed by Solver::_sort_plans (Solver.cpp lines 564-601).
The scan (lines 566-574) uses strict comparisons, so the earliest index keeps
the minimum on ties; then (lines 575-597) if the minimum is not at slot 0 it is
swapped there (plans and priorities), and finally slots 1 and 2 are swapped
when priority[1] > priority[2]. -/
def sort_plans (q0 q1 q2 : Plan) : Plan × Plan × Plan :=
  if q1.1 < q0.1 then
    if q2.1 < q1.1 then
      -- id_min = 2: after the swap the priorities are (p2, p1, p0)
      if q1.1 > q0.1 then (q2, q0, q1) else (q2, q1, q0)
    else
      -- id_min = 1: after the swap the priorities are (p1, p0, p2)
      if q0.1 > q2.1 then (q1, q2, q0) else (q1, q0, q2)
  else
    if q2.1 < q0.1 then
      -- id_min = 2: after the swap the priorities are (p2, p1, p0)
      if q1.1 > q0.1 then (q2, q0, q1) else (q2, q1, q0)
    else
      -- id_min = 0: slot 0 is left in place
      if q1.1 > q2.1 then (q0, q2, q1) else (q0, q1, q2)

/-- C2: for every input ordering of the three per-direction plans, after
Solver::_sort_plans the category priorities are ascending,
category(plan[0]) <= category(plan[1]) <= category(plan[2]); and when slot 0
already carries the lowest priority (ties included) it stays in slot 0. -/
theorem c2_sort_plans_ordered (q0 q1 q2 : Plan) :
    (sort_plans q0 q1 q2).1.1 ≤ (sort_plans q0 q1 q2).2.1.1 ∧
    (sort_plans q0 q1 q2).2.1.1 ≤ (sort_plans q0 q1 q2).2.2.1 ∧
    (q0.1 ≤ q1.1 → q0.1 ≤ q2.1 → (sort_plans q0 q1 q2).1 = q0) := by
  unfold sort_plans
  split_ifs with h1 h2 h3 h4 h5 h6 h7 <;>
    refine ⟨by simp only []; omega, by simp only []; omega, ?_⟩ <;>
    intro ha hb <;>
    first
      | rfl
      | exact absurd ha (by omega)

/-- Closed instance of the plan ordering: priorities (3, 1, 2) sort to
(1, 2, 3), and priorities (0, 2, 1) keep slot 0 in place. -/
theorem c2_sort_plans_witness :
    (sort_plans ((0 : Int), 0) ((2 : Int), 1) ((1 : Int), 2)).1 = ((0 : Int), 0) :=
  (c2_sort_plans_ordered ((0 : Int), 0) ((2 : Int), 1) ((1 : Int), 2)).2.2
    (by decide) (by decide)

/-! ## Derivative boundary conditions (Solver.cpp constructor) -/

/-- Boundary condition of one side of one direction, as in flups.h. -/
inductive BoundaryType
  | EVEN
  | ODD
  | PERIODIC
  | UNBOUNDED
deriving DecidableEq, Repr

/-- Toggle applied per entry when building the derivative boundary conditions,
from the constructor loop Solver.cpp lines 112-128: EVEN becomes ODD, ODD
becomes EVEN, anything else is copied unchanged. -/
def cmpt_diffbc (bc : BoundaryType) : BoundaryType :=
  if bc = BoundaryType.EVEN then BoundaryType.ODD
  else if bc = BoundaryType.ODD then BoundaryType.EVEN
  else bc

/-- Table of derivative boundary conditions diffbc[id][is][lia] built from the
right-hand-side table rhsbc[id][is][lia] (Solver.cpp lines 112-128). -/
def build_diffbc (lda : Nat) (rhsbc : Fin 3 → Fin 2 → Fin lda → BoundaryType) :
    Fin 3 → Fin 2 → Fin lda → BoundaryType :=
  fun id sd lia => cmpt_diffbc (rhsbc id sd lia)

/-- C8: for every direction, side and component, the derivative boundary
condition is ODD where the right-hand-side one is EVEN, EVEN where it is ODD,
and is the unchanged right-hand-side value where it is UNBOUNDED or PERIODIC. -/
theorem c8_diffbc_toggle (lda : Nat)
    (rhsbc : Fin 3 → Fin 2 → Fin lda → BoundaryType)
    (id : Fin 3) (sd : Fin 2) (lia : Fin lda) :
    (rhsbc id sd lia = BoundaryType.EVEN →
      build_diffbc lda rhsbc id sd lia = BoundaryType.ODD) ∧
    (rhsbc id sd lia = BoundaryType.ODD →
      build_diffbc lda rhsbc id sd lia = BoundaryType.EVEN) ∧
    (rhsbc id sd lia = BoundaryType.UNBOUNDED →
      build_diffbc lda rhsbc id sd lia = rhsbc id sd lia) ∧
    (rhsbc id sd lia = BoundaryType.PERIODIC →
      build_diffbc lda rhsbc id sd lia = rhsbc id sd lia) := by
  cases h : rhsbc id sd lia <;>
    simp [build_diffbc, cmpt_diffbc, h]

/-- Closed instance of the toggle: an all-EVEN table turns into an all-ODD one
at entry (0, 0, 0). -/
theorem c8_diffbc_toggle_witness :
    build_diffbc 1 (fun _ _ _ => BoundaryType.EVEN) 0 0 0 = BoundaryType.ODD :=
  (c8_diffbc_toggle 1 (fun _ _ _ => BoundaryType.EVEN) 0 0 0).1 rfl

/-! ## Rotational solve guard (Solver.cpp, Solver::solve) -/

/-- Solve mode requested by the caller of Solver::solve. -/
inductive SolverType
  | STD
  | ROT
deriving DecidableEq, Repr

/-- Stage of the solver lifecycle at which an abort can be raised. -/
inductive SolverStage
  | construction
  | setup
  | solve
deriving DecidableEq, Repr

/-- Guard at the top of Solver::solve (Solver.cpp line 1128):
FLUPS_CHECK(!(type == ROT && _odiff == 0), ...) aborts fatally exactly when
the rotational mode is requested with derivative order 0. -/
def solve_rot_guard (t : SolverType) (odiff : Nat) : Bool :=
  decide (t = SolverType.ROT ∧ odiff = 0)

/-- Stage at which the rotational-mode misconfiguration aborts.  The
constructor (Solver.cpp lines 38-210) and setup do not receive the solve mode
and contain no check referencing it; the only guard on the pair
(mode, derivative order) is the FLUPS_CHECK at the top of solve
(Solver.cpp line 1128), so the abort can only be raised there. -/
def rot_abort_stage (t : SolverType) (odiff : Nat) : Option SolverStage :=
  if solve_rot_guard t odiff then some SolverStage.solve else none

/-- C10 counterexample: with derivative_order = 0 and the rotational mode
requested, the abort is raised at the solve call, not at construction and not
at setup. -/
theorem c10_rot_guard_counterexample :
    rot_abort_stage SolverType.ROT 0 ≠ some SolverStage.construction ∧
    rot_abort_stage SolverType.ROT 0 ≠ some SolverStage.setup ∧
    rot_abort_stage SolverType.ROT 0 = some SolverStage.solve := by
  decide

/-- C10 amended: requesting the rotational solve mode on a solver constructed
with derivative_order = 0 is a configuration error that is fatal at the solve
call (the guard cannot fire earlier, and fires nowhere else). -/
theorem c10_rot_fatal_at_solve :
    rot_abort_stage SolverType.ROT 0 = some SolverStage.solve ∧
    (∀ odiff, 0 < odiff → rot_abort_stage SolverType.ROT odiff = none) ∧
    (∀ t odiff, rot_abort_stage t odiff = none ∨
      rot_abort_stage t odiff = some SolverStage.solve) := by
  refine ⟨by decide, fun odiff h => ?_, fun t odiff => ?_⟩
  · simp [rot_abort_stage, solve_rot_guard]
    omega
  · unfold rot_abort_stage
    split <;> simp

/-- Closed instance: with derivative_order = 1 the rotational solve passes the
guard. -/
theorem c10_rot_fatal_at_solve_witness :
    rot_abort_stage SolverType.ROT 1 = none :=
  c10_rot_fatal_at_solve.2.1 1 (by decide)

/-! ## Alltoallv start offsets (SwitchTopo_a2a.cpp, _setup_subComm) -/

/-- Per-rank start offsets as computed by SwitchTopo_a2a::_setup_subComm
(SwitchTopo_a2a.cpp lines 326-329): start[0] = 0 and, for ir >= 1,
start[ir] = start[ir-1] + count[ir]  (note: count of rank ir itself). -/
def a2a_start (counts : List Nat) : List Nat :=
  (List.range counts.length).foldl
    (fun s ir =>
      if ir = 0 then s ++ [0]
      else s ++ [s.getD (ir - 1) 0 + counts.getD ir 0])
    []

/-- Exclusive prefix sum of the counts: start[0] = 0 and
start[r] = start[r-1] + count[r-1].  This is the formula of the claim, the one
implemented by the plain SwitchTopo constructor (SwitchTopo.cpp lines 104-107,
ssend[i] = ssend[i-1] + nsend[i-1]), and the one matching the staging-buffer
offsets of SwitchTopo_a2a::setup_buffers. -/
def exclusiveScan (counts : List Nat) : List Nat :=
  (List.range counts.length).map (fun r => (counts.take r).sum)

/-- Staging offset assigned to a block destined to rank destrank by
SwitchTopo_a2a::setup_buffers (SwitchTopo_a2a.cpp lines 261-282): the sum of
the counts of all ranks below destrank. -/
def bufOffset (counts : List Nat) (destrank : Nat) : Nat :=
  (counts.take destrank).sum

/-- C5: with per-rank counts (2, 4) the code computes start = (0, 4) while the
exclusive prefix sum (the offset at which the data for each rank is actually
staged, bufOffset) is (0, 2): the start array handed to MPI_Alltoallv does not
point at the staged data of each rank. -/
theorem c5_start_not_exclusive_scan :
    a2a_start [2, 4] = [0, 4] ∧
    exclusiveScan [2, 4] = [0, 2] ∧
    bufOffset [2, 4] 1 = 2 ∧
    a2a_start [2, 4] ≠ exclusiveScan [2, 4] := by
  decide

/-! ## Block extents (SwitchTopo_a2a.cpp constructor) -/

/-- Truncated remainder of b by a has a smaller absolute value pattern: the
absolute value of a C truncated remainder is the Nat remainder of the absolute
values. -/
theorem natAbs_tmod (b a : Int) : (b.tmod a).natAbs = b.natAbs % a.natAbs := by
  cases b with
  | ofNat m =>
    cases a with
    | ofNat n => rfl
    | negSucc n => rfl
  | negSucc m =>
    cases a with
    | ofNat n =>
      show (-(Int.ofNat (m.succ % n))).natAbs = _
      rw [Int.natAbs_neg]
      rfl
    | negSucc n =>
      show (-(Int.ofNat (m.succ % n.succ))).natAbs = _
      rw [Int.natAbs_neg]
      rfl

/-- Recursive gcd of the SwitchTopo header (src/unnamed/part_001 lines
147-149): gcd(a, b) = (a == 0) ? b : gcd(b % a, a), with the C truncated
remainder. -/
def cppGcd (a b : Int) : Int :=
  if h : a = 0 then b else cppGcd (b.tmod a) a
termination_by a.natAbs
decreasing_by
  rw [natAbs_tmod]
  exact Nat.mod_lt _ (Int.natAbs_pos.mpr h)

/-- CppGcd agrees with the mathematical gcd on nonnegative inputs. -/
theorem cppGcd_eq_gcd (a b : Int) (ha : 0 ≤ a) (hb : 0 ≤ b) :
    cppGcd a b = (Int.gcd a b : Int) := by
  induction a, b using cppGcd.induct with
  | case1 b =>
    rw [cppGcd]
    simp [Int.gcd, Int.natAbs_of_nonneg hb]
  | case2 a b h ih =>
    rw [cppGcd, dif_neg h]
    have htm : 0 ≤ b.tmod a := Int.tmod_nonneg _ hb
    rw [ih htm ha]
    congr 1
    simp only [Int.gcd, natAbs_tmod]
    exact Nat.gcd_rec _ _ ▸ (Nat.gcd_comm _ _ ▸ rfl)

/-- Per-process, per-direction exchange information feeding the block-extent
computation of one SwitchTopo_a2a: the send extent iend[id] - istart[id] and
the receive extent oend[id] - ostart[id] of the shared zone on that process,
and whether the process is the last one along the direction in the input
resp. output topology (rankd(id) == nproc(id) - 1). -/
structure DirProc where
  isend : Int
  osend : Int
  lastIn : Bool
  lastOut : Bool
deriving DecidableEq, Repr

/-- Total exchanged extent of a direction: the MPI_Allreduce sum of the local
send extents over every process (SwitchTopo_a2a.cpp line 104). -/
def a2a_exSize (ps : List DirProc) : Int :=
  (ps.map (fun p => p.isend)).sum

/-- Send extent after the last-process adjustment (SwitchTopo_a2a.cpp lines
106-109): the last process of the input topology lowers its extent by
exSize % 2. -/
def a2a_adjIsend (ex : Int) (p : DirProc) : Int :=
  if p.lastIn then p.isend - ex.tmod 2 else p.isend

/-- Receive extent after the last-process adjustment (SwitchTopo_a2a.cpp lines
110-112). -/
def a2a_adjOsend (ex : Int) (p : DirProc) : Int :=
  if p.lastOut then p.osend - ex.tmod 2 else p.osend

/-- Block extent for one direction computed by the SwitchTopo_a2a constructor
(SwitchTopo_a2a.cpp lines 97-123): every process takes the gcd of its adjusted
send and receive extents, the values are MPI_Allgather-ed, and the gcd is
folded over every process starting from process 0.  The empty case cannot
occur (comm_size >= 1). -/
def a2a_nByBlock (ps : List DirProc) : Int :=
  let ex := a2a_exSize ps
  match ps.map (fun p => cppGcd (a2a_adjIsend ex p) (a2a_adjOsend ex p)) with
  | [] => 0
  | h :: t => t.foldl cppGcd h

/-- Block extent as the claim words it: the greatest common divisor, across
all processes, of the per-process send and receive extents of the shared
zone, with no adjustment. -/
def nByBlock_claim (ps : List DirProc) : Nat :=
  ps.foldl (fun g p => Nat.gcd (Nat.gcd g p.isend.natAbs) p.osend.natAbs) 0

/-- Flattened list of the adjusted extents of every process
(send then receive, in process order). -/
def a2a_adjExtents (ps : List DirProc) : List Int :=
  let ex := a2a_exSize ps
  ps.flatMap (fun p => [a2a_adjIsend ex p, a2a_adjOsend ex p])

/-- Greatest common divisor of a list of integers through absolute values. -/
def intGcdList (l : List Int) : Nat :=
  l.foldl (fun g x => Nat.gcd g x.natAbs) 0

/-- C3 counterexample: a single process whose shared zone has send and receive
extent 5 (so the exchanged total 5 is odd and the process is last in both
topologies) stores the block extent gcd(5-1, 5-1) = 4, not the gcd 5 of the
unadjusted send and receive extents stated by the claim. -/
theorem c3_nByBlock_counterexample :
    a2a_nByBlock [⟨5, 5, true, true⟩] = 4 ∧
    nByBlock_claim [⟨5, 5, true, true⟩] = 5 ∧
    a2a_nByBlock [⟨5, 5, true, true⟩] ≠ (nByBlock_claim [⟨5, 5, true, true⟩] : Int) := by
  have h04 : cppGcd 0 4 = 4 := by
    rw [cppGcd]
    norm_num
  have h44 : cppGcd 4 4 = 4 := by
    rw [cppGcd]
    norm_num
    exact h04
  have htm : (5 : Int).tmod 2 = 1 := by decide
  have hval : a2a_nByBlock [⟨5, 5, true, true⟩] = 4 := by
    simp only [a2a_nByBlock, a2a_exSize, a2a_adjIsend, a2a_adjOsend, List.map,
      List.sum_cons, List.sum_nil]
    norm_num [htm, h44]
  refine ⟨hval, by decide, ?_⟩
  rw [hval]
  decide

/-- Folding cppGcd over a list of nonnegative integers is the Nat gcd fold of
the absolute values. -/
theorem foldl_cppGcd_eq (l : List Int) (hl : ∀ x ∈ l, 0 ≤ x) (g : Nat) :
    l.foldl cppGcd (g : Int) = ((l.foldl (fun a x => Nat.gcd a x.natAbs) g : Nat) : Int) := by
  induction l generalizing g with
  | nil => simp
  | cons x t ih =>
    have hx : 0 ≤ x := hl x (List.mem_cons_self x t)
    have ht : ∀ y ∈ t, 0 ≤ y := fun y hy => hl y (List.mem_cons_of_mem x hy)
    simp only [List.foldl_cons]
    rw [cppGcd_eq_gcd _ _ (Int.ofNat_nonneg g) hx]
    have : Int.gcd (g : Int) x = Nat.gcd g x.natAbs := by
      simp [Int.gcd]
    rw [this, ih ht]

/-- Pairwise gcd accumulation equals gcd accumulation over the flattened
pairs. -/
theorem foldl_gcd_pairs (ps : List DirProc) (ex : Int) (g : Nat) :
    ps.foldl (fun a q => Nat.gcd a (Nat.gcd (a2a_adjIsend ex q).natAbs (a2a_adjOsend ex q).natAbs)) g
      = (ps.flatMap (fun p => [a2a_adjIsend ex p, a2a_adjOsend ex p])).foldl
          (fun a x => Nat.gcd a x.natAbs) g := by
  induction ps generalizing g with
  | nil => simp
  | cons p t ih =>
    simp only [List.foldl_cons, List.flatMap_cons, List.foldl_append, List.foldl_nil]
    rw [ih, Nat.gcd_assoc]

/-- Folding the absolute-value gcd over the mapped cppGcd values is the
pairwise gcd fold over the processes, on nonnegative adjusted extents. -/
theorem foldl_natAbs_map_cppGcd (ex : Int) (t : List DirProc)
    (h : ∀ q ∈ t, 0 ≤ a2a_adjIsend ex q ∧ 0 ≤ a2a_adjOsend ex q) (g0 : Nat) :
    (t.map (fun q => cppGcd (a2a_adjIsend ex q) (a2a_adjOsend ex q))).foldl
        (fun a x => Nat.gcd a x.natAbs) g0
      = t.foldl (fun a q => Nat.gcd a
          (Nat.gcd (a2a_adjIsend ex q).natAbs (a2a_adjOsend ex q).natAbs)) g0 := by
  induction t generalizing g0 with
  | nil => simp
  | cons q tt ih =>
    simp only [List.map_cons, List.foldl_cons]
    have hq := h q (List.mem_cons_self q tt)
    rw [cppGcd_eq_gcd _ _ hq.1 hq.2]
    have habs : ((Int.gcd (a2a_adjIsend ex q) (a2a_adjOsend ex q) : Nat) : Int).natAbs
        = Nat.gcd (a2a_adjIsend ex q).natAbs (a2a_adjOsend ex q).natAbs := by
      simp [Int.gcd]
    rw [habs, ih (fun r hr => h r (List.mem_cons_of_mem q hr))]

/-- C3 amended: the block extent stored by the constructor equals the greatest
common divisor across all processes of the per-process send and receive
extents of the shared zone after the adjustment of SwitchTopo_a2a.cpp lines
106-112: the last process of each topology along the direction lowers its
extent by one when the total exchanged extent of the direction is odd. -/
theorem c3_nByBlock_gcd (ps : List DirProc) (hne : ps ≠ [])
    (hpos : ∀ p ∈ ps, 0 ≤ a2a_adjIsend (a2a_exSize ps) p ∧
      0 ≤ a2a_adjOsend (a2a_exSize ps) p) :
    a2a_nByBlock ps = (intGcdList (a2a_adjExtents ps) : Int) := by
  match ps, hne with
  | p :: t, _ =>
    have hp := hpos p (List.mem_cons_self p t)
    have ht : ∀ q ∈ t, 0 ≤ a2a_adjIsend (a2a_exSize (p :: t)) q ∧
        0 ≤ a2a_adjOsend (a2a_exSize (p :: t)) q :=
      fun q hq => hpos q (List.mem_cons_of_mem p hq)
    have hmapnn : ∀ x ∈ t.map (fun q => cppGcd (a2a_adjIsend (a2a_exSize (p :: t)) q)
        (a2a_adjOsend (a2a_exSize (p :: t)) q)), 0 ≤ x := by
      intro x hx
      rcases List.mem_map.mp hx with ⟨q, hq, rfl⟩
      have hq2 := ht q hq
      rw [cppGcd_eq_gcd _ _ hq2.1 hq2.2]
      exact Int.ofNat_nonneg _
    simp only [a2a_nByBlock, a2a_adjExtents, intGcdList, List.map_cons,
      List.flatMap_cons, List.foldl_cons, List.foldl_append, List.foldl_nil]
    rw [cppGcd_eq_gcd _ _ hp.1 hp.2]
    rw [show ((Int.gcd (a2a_adjIsend (a2a_exSize (p :: t)) p)
        (a2a_adjOsend (a2a_exSize (p :: t)) p) : Nat) : Int)
      = ((Nat.gcd (a2a_adjIsend (a2a_exSize (p :: t)) p).natAbs
          (a2a_adjOsend (a2a_exSize (p :: t)) p).natAbs : Nat) : Int) from by simp [Int.gcd]]
    rw [foldl_cppGcd_eq _ hmapnn]
    rw [foldl_natAbs_map_cppGcd _ _ ht]
    rw [foldl_gcd_pairs]
    congr 2
    simp [Nat.gcd_comm]

/-- Closed instance of the amended block-extent law: two processes with
extents (6, 2) and (2, 6) and even totals keep their extents unadjusted and
store gcd(6, 2, 2, 6) = 2. -/
theorem c3_nByBlock_gcd_witness :
    a2a_nByBlock [⟨6, 2, false, false⟩, ⟨2, 6, true, true⟩]
      = (intGcdList (a2a_adjExtents [⟨6, 2, false, false⟩, ⟨2, 6, true, true⟩]) : Int) :=
  c3_nByBlock_gcd [⟨6, 2, false, false⟩, ⟨2, 6, true, true⟩] (by decide)
    (by decide)

/-! ## Uniform versus variable all-to-all (SwitchTopo_a2a.cpp) -/

/-- Per-destination counts derived from the per-block destination ranks by
SwitchTopo_a2a::_setup_subComm (SwitchTopo_a2a.cpp lines 313-324): every block
adds the common block memory size to the count of its destination rank. -/
def a2a_counts (subsize blockMem : Nat) (destRank : List Nat) : List Nat :=
  (List.range subsize).map (fun r => blockMem * destRank.count r)

/-- Uniform-exchange decision of the SwitchTopo_a2a constructor
(SwitchTopo_a2a.cpp lines 232-242): tmp = i2o_count[0], the flag starts as
tmp != 0 and, for every rank ir of the sub-communicator with ir >= 1, the flag
is and-ed with tmp == i2o_count[ir] and tmp == o2i_count[ir].  The value
o2i_count[0] is never compared.  SwitchTopo_a2a::execute (lines 595-601) then
calls MPI_Alltoall when the flag is true and MPI_Alltoallv otherwise. -/
def a2a_is_all2all (subsize : Nat) (i2o o2i : List Nat) : Bool :=
  let tmp := i2o.getD 0 0
  (List.range subsize).foldl
    (fun b ir =>
      if ir = 0 then b
      else b && decide (tmp = i2o.getD ir 0) && decide (tmp = o2i.getD ir 0))
    (decide (tmp ≠ 0))

/-- Predicate of the claim: every per-destination count, sent and received, is
equal. -/
def allCountsEqual (subsize : Nat) (i2o o2i : List Nat) : Prop :=
  ∀ r < subsize, i2o.getD r 0 = i2o.getD 0 0 ∧ o2i.getD r 0 = i2o.getD 0 0

instance (subsize : Nat) (i2o o2i : List Nat) :
    Decidable (allCountsEqual subsize i2o o2i) := by
  unfold allCountsEqual
  infer_instance

/-- C4 counterexample: on a sub-communicator of size 2 with one block sent to
each rank but two blocks received from rank 0 (counts sent (1, 1), counts
received (2, 1), both of the shape _setup_subComm builds), the code still
chooses the uniform MPI_Alltoall although the counts are not all equal; and
with all counts equal to zero the code chooses MPI_Alltoallv although all
counts are equal. -/
theorem c4_is_all2all_counterexample :
    a2a_counts 2 1 [0, 1] = [1, 1] ∧
    a2a_counts 2 1 [0, 0, 1] = [2, 1] ∧
    a2a_is_all2all 2 [1, 1] [2, 1] = true ∧
    ¬ allCountsEqual 2 [1, 1] [2, 1] ∧
    a2a_is_all2all 2 [0, 0] [0, 0] = false ∧
    allCountsEqual 2 [0, 0] [0, 0] := by
  refine ⟨by decide, by decide, by decide, by decide, by decide, by decide⟩

/-- C4 amended: the exchange is performed with the uniform MPI_Alltoall if and
only if the count sent to rank 0 is nonzero, every other send count equals it,
and every receive count from the ranks other than rank 0 equals it; the
receive count from rank 0 is not examined. -/
theorem c4_is_all2all_iff (subsize : Nat) (i2o o2i : List Nat) :
    a2a_is_all2all subsize i2o o2i = true ↔
      (i2o.getD 0 0 ≠ 0 ∧
        ∀ r, 1 ≤ r → r < subsize →
          i2o.getD r 0 = i2o.getD 0 0 ∧ o2i.getD r 0 = i2o.getD 0 0) := by
  unfold a2a_is_all2all
  induction subsize with
  | zero =>
    simp only [List.range_zero, List.foldl_nil, decide_eq_true_eq]
    constructor
    · intro h
      exact ⟨h, fun r h1 h2 => absurd h2 (by omega)⟩
    · intro h
      exact h.1
  | succ n ih =>
    rw [List.range_succ, List.foldl_append, List.foldl_cons, List.foldl_nil]
    by_cases hn : n = 0
    · subst hn
      rw [if_pos rfl, ih]
      constructor
      · intro h
        exact ⟨h.1, fun r h1 h2 => absurd h2 (by omega)⟩
      · intro h
        exact ⟨h.1, fun r h1 h2 => absurd h2 (by omega)⟩
    · rw [if_neg hn]
      simp only [Bool.and_eq_true, decide_eq_true_eq]
      rw [ih]
      constructor
      · rintro ⟨⟨⟨h0, hall⟩, hi⟩, ho⟩
        refine ⟨h0, fun r h1 h2 => ?_⟩
        by_cases hr : r = n
        · subst hr
          exact ⟨hi.symm, ho.symm⟩
        · exact hall r h1 (by omega)
      · rintro ⟨h0, hall⟩
        have hn1 : 1 ≤ n := by omega
        have hlast := hall n hn1 (by omega)
        exact ⟨⟨⟨h0, fun r h1 h2 => hall r h1 (by omega)⟩, hlast.1.symm⟩, hlast.2.symm⟩

/-- Closed instance of the uniform-exchange criterion: counts sent (3, 3) and
received (3, 3) on a sub-communicator of size 2 select the uniform
MPI_Alltoall. -/
theorem c4_is_all2all_iff_witness :
    a2a_is_all2all 2 [3, 3] [3, 3] = true :=
  (c4_is_all2all_iff 2 [3, 3] [3, 3]).mpr
    ⟨by decide, fun r h1 h2 => by
      interval_cases r
      exact ⟨by decide, by decide⟩⟩

/-! ## Lattice Green function file (green_functions.hpp, _lgf_readfile) -/

/-- Kernel-file configuration chosen by _lgf_readfile
(green_functions.hpp lines 49-63): for a 3-D problem N = 64 with file
LGF_3d_sym_acc12_64.ker, for a 2-D problem N = 32 with file
LGF_2d_sym_acc12_32.ker, anything else is a fatal error. -/
def lgf_config (path : String) (greendim : Nat) : Option (Nat × String) :=
  if greendim = 3 then some (64, path ++ "/LGF_3d_sym_acc12_64.ker")
  else if greendim = 2 then some (32, path ++ "/LGF_2d_sym_acc12_32.ker")
  else none

/-- Number of double samples requested from the kernel file
(green_functions.hpp line 74): size = N * N * N in every branch, for the 2-D
case as well. -/
def lgf_readCount (path : String) (greendim : Nat) : Option Nat :=
  (lgf_config path greendim).map (fun c => c.1 * c.1 * c.1)

/-- Reading of the kernel file by _lgf_readfile (green_functions.hpp lines
49-83): resolve N and the file name, abort fatally (FLUPS_ERROR) when the
dimension is unsupported or the file cannot be opened, otherwise fread
N * N * N doubles.  The file system is modelled by a lookup from names to an
optional content list. -/
def lgf_readfile (greendim : Nat) (path : String)
    (fs : String → Option (List Rat)) : Except String (Nat × List Rat) :=
  match lgf_config path greendim with
  | none => Except.error "Greendim is not available in this version"
  | some (n, name) =>
    match fs name with
    | none => Except.error ("unable to read file " ++ name)
    | some content => Except.ok (n, content.take (n * n * n))

/-- C9 counterexample: in the 2-D case the code requests 32 * 32 * 32 = 32768
double samples, not the 32 * 32 = 1024 samples stated by the claim. -/
theorem c9_lgf_readcount_counterexample :
    lgf_readCount "kernel" 2 = some 32768 ∧ (32768 : Nat) ≠ 32 * 32 := by
  decide

/-- C9 amended: the lattice-Green variant reads the binary kernel file
LGF_3d_sym_acc12_64.ker for 3-D and LGF_2d_sym_acc12_32.ker for 2-D, requests
exactly N * N * N double samples in both cases (N = 64 resp. N = 32), and
aborts fatally when the file cannot be opened or the dimension is not 2 or 3. -/
theorem c9_lgf_readfile_behaviour (path : String) (content : List Rat) :
    lgf_readfile 3 path (fun _ => some content)
      = Except.ok (64, content.take (64 * 64 * 64)) ∧
    lgf_readfile 2 path (fun _ => some content)
      = Except.ok (32, content.take (32 * 32 * 32)) ∧
    lgf_config path 3 = some (64, path ++ "/LGF_3d_sym_acc12_64.ker") ∧
    lgf_config path 2 = some (32, path ++ "/LGF_2d_sym_acc12_32.ker") ∧
    lgf_readfile 3 path (fun _ => none)
      = Except.error ("unable to read file " ++ (path ++ "/LGF_3d_sym_acc12_64.ker")) ∧
    lgf_readfile 2 path (fun _ => none)
      = Except.error ("unable to read file " ++ (path ++ "/LGF_2d_sym_acc12_32.ker")) ∧
    lgf_readfile 1 path (fun _ => some content)
      = Except.error "Greendim is not available in this version" := by
  refine ⟨rfl, rfl, rfl, rfl, rfl, rfl, rfl⟩

/-! ## Green function scaling (Solver.cpp, Solver::_scaleGreenFunction) -/

/-- Read-modify-write of one buffer cell, the shape of the loop bodies of
_scaleGreenFunction: the cell at index i is replaced by f of its value, and an
out-of-range index leaves the buffer unchanged. -/
def updAt (l : List Rat) (i : Nat) (f : Rat → Rat) : List Rat :=
  l.set i (f (l.getD i 0))

theorem updAt_length (l : List Rat) (i : Nat) (f : Rat → Rat) :
    (updAt l i f).length = l.length := by
  simp [updAt]

theorem updAt_getElem? (l : List Rat) (i : Nat) (f : Rat → Rat) (p : Nat) :
    (updAt l i f)[p]? = if p = i then f <$> l[p]? else l[p]? := by
  unfold updAt
  by_cases hp : p = i
  · subst hp
    rw [if_pos rfl]
    by_cases hl : p < l.length
    · rw [List.getElem?_set_self hl]
      simp [List.getD_eq_getElem?_getD, List.getElem?_eq_getElem hl]
    · have hnone : l[p]? = none := List.getElem?_eq_none (Nat.le_of_not_lt hl)
      have hnone2 : (l.set p (f (l.getD p 0)))[p]? = none := by
        rw [List.getElem?_eq_none]
        simpa using Nat.le_of_not_lt hl
      rw [hnone, hnone2]
      rfl
  · rw [if_neg hp, List.getElem?_set_ne (fun h => hp h.symm)]

/-- Inner loop of _scaleGreenFunction (Solver.cpp lines 1056-1058), executed
for ii = 0 .. k-1 in increasing order: dataloc[ii] = dataloc[ii] * volfact,
with dataloc the buffer shifted by base = collapsedIndex(ax0, 0, io, nmem, nf)
= io * (nmem(ax0) * nf). -/
def scaleLine (vol : Rat) (base : Nat) (d : List Rat) : Nat → List Rat
  | 0 => d
  | k + 1 => updAt (scaleLine vol base d k) (base + k) (fun x => x * vol)

theorem scaleLine_getElem? (vol : Rat) (base : Nat) (d : List Rat) (k p : Nat) :
    (scaleLine vol base d k)[p]? =
      if base ≤ p ∧ p < base + k then (fun x => x * vol) <$> d[p]? else d[p]? := by
  induction k with
  | zero =>
    rw [if_neg (by omega)]
    rfl
  | succ k ih =>
    rw [scaleLine, updAt_getElem?]
    by_cases hp : p = base + k
    · subst hp
      rw [if_pos rfl, ih, if_neg (by omega), if_pos (by omega)]
    · rw [if_neg hp, ih]
      by_cases hin : base ≤ p ∧ p < base + k
      · rw [if_pos hin, if_pos (by omega)]
      · rw [if_neg hin, if_neg (by omega)]

/-- Outer loop of _scaleGreenFunction (Solver.cpp lines 1052-1059), executed
for io = 0 .. n-1 in increasing order, with line length
inmax = nloc(ax0) * nf and line stride nmem(ax0) * nf. -/
def scaleRows (vol : Rat) (stride inmax : Nat) (d : List Rat) : Nat → List Rat
  | 0 => d
  | n + 1 => scaleLine vol (n * stride) (scaleRows vol stride inmax d n) inmax

theorem scaleRows_getElem?_out (vol : Rat) (stride inmax : Nat) (d : List Rat)
    (n p : Nat)
    (hout : ∀ io, io < n → ¬(io * stride ≤ p ∧ p < io * stride + inmax)) :
    (scaleRows vol stride inmax d n)[p]? = d[p]? := by
  induction n with
  | zero => rfl
  | succ n ih =>
    rw [scaleRows, scaleLine_getElem?, if_neg (hout n (by omega))]
    exact ih (fun io hio => hout io (by omega))

theorem scaleRows_getElem?_in (vol : Rat) (stride inmax : Nat) (d : List Rat)
    (n p io : Nat) (hst : inmax ≤ stride)
    (hio : io < n) (h1 : io * stride ≤ p) (h2 : p < io * stride + inmax) :
    (scaleRows vol stride inmax d n)[p]? = (fun x => x * vol) <$> d[p]? := by
  induction n with
  | zero => omega
  | succ n ih =>
    rw [scaleRows, scaleLine_getElem?]
    by_cases hn : io = n
    · subst hn
      rw [if_pos ⟨h1, h2⟩]
      congr 1
      apply scaleRows_getElem?_out
      rintro jo hjo ⟨hj1, hj2⟩
      have habs : p < p :=
        calc p < jo * stride + inmax := hj2
          _ ≤ jo * stride + stride := Nat.add_le_add_left hst _
          _ = (jo + 1) * stride := (Nat.succ_mul jo stride).symm
          _ ≤ io * stride := Nat.mul_le_mul_right _ (by omega)
          _ ≤ p := h1
      exact absurd habs (lt_irrefl p)
    · have hion : io < n := by omega
      rw [if_neg ?notin]
      · exact ih hion
      case notin =>
        rintro ⟨hh1, hh2⟩
        have habs : p < p :=
          calc p < io * stride + inmax := h2
            _ ≤ io * stride + stride := Nat.add_le_add_left hst _
            _ = (io + 1) * stride := (Nat.succ_mul io stride).symm
            _ ≤ n * stride := Nat.mul_le_mul_right _ (by omega)
            _ ≤ p := hh1
        exact absurd habs (lt_irrefl p)

/-- Zeroing loop of mode zero (Solver.cpp lines 1066-1068), executed for
i0 = 0 .. n-1: data[i0] = 0.0. -/
def killLine (d : List Rat) : Nat → List Rat
  | 0 => d
  | k + 1 => updAt (killLine d k) k (fun _ => 0)

theorem killLine_getElem? (d : List Rat) (n p : Nat) :
    (killLine d n)[p]? =
      if p < n then (fun _ => (0 : Rat)) <$> d[p]? else d[p]? := by
  induction n with
  | zero =>
    rw [if_neg (by omega)]
    rfl
  | succ n ih =>
    rw [killLine, updAt_getElem?]
    by_cases hp : p = n
    · subst hp
      rw [if_pos rfl, ih, if_neg (by omega), if_pos (by omega)]
    · rw [if_neg hp, ih]
      by_cases hin : p < n
      · rw [if_pos hin, if_pos (by omega)]
      · rw [if_neg hin, if_neg (by omega)]

/-- Solver::_scaleGreenFunction (Solver.cpp lines 1035-1073): multiply the
loop region by the volume factor, then, only when killModeZero is requested
and the rank owns the global start index (0,0,0)
(topo->get_istart_glob == (0,0,0)), zero the first nf scalars. -/
def scaleGreenFunction (vol : Rat) (stride inmax onmax nf : Nat)
    (killModeZero : Bool) (istart0 istart1 istart2 : Int) (d : List Rat) :
    List Rat :=
  let scaled := scaleRows vol stride inmax d onmax
  if killModeZero then
    if istart0 = 0 ∧ istart1 = 0 ∧ istart2 = 0 then killLine scaled nf
    else scaled
  else scaled

/-- KillModeZero argument passed by the default Green assembly path,
Solver::_cmptGreenFunction (Solver.cpp line 1005):
_scaleGreenFunction(topo[_ndim-1], green, false). -/
def cmptGreenFunction_killArg : Bool := false

/-- C7: scaling the Green function multiplies every element visited by the
loop (io < onmax lines of inmax scalars at stride spacing) by the accumulated
volume factor and leaves every other cell unchanged; mode zero is zeroed only
when the kill-mode-zero variant is requested and then only on the rank whose
global start index is (0,0,0); and the default Green assembly path requests
killModeZero = false, leaving mode zero as computed (it is scaled like any
other element). -/
theorem c7_scale_green_function (vol : Rat) (stride inmax onmax nf : Nat)
    (i0 i1 i2 : Int) (d : List Rat) (hst : inmax ≤ stride) :
    (scaleGreenFunction vol stride inmax onmax nf cmptGreenFunction_killArg
        i0 i1 i2 d = scaleRows vol stride inmax d onmax) ∧
    (∀ p io, io < onmax → io * stride ≤ p → p < io * stride + inmax →
      (scaleRows vol stride inmax d onmax)[p]? = (fun x => x * vol) <$> d[p]?) ∧
    (∀ p, (∀ io, io < onmax → ¬(io * stride ≤ p ∧ p < io * stride + inmax)) →
      (scaleRows vol stride inmax d onmax)[p]? = d[p]?) ∧
    (∀ p, p < nf →
      (scaleGreenFunction vol stride inmax onmax nf true 0 0 0 d)[p]? =
        (fun _ => (0 : Rat)) <$> (scaleRows vol stride inmax d onmax)[p]?) ∧
    (∀ p, nf ≤ p →
      (scaleGreenFunction vol stride inmax onmax nf true 0 0 0 d)[p]? =
        (scaleRows vol stride inmax d onmax)[p]?) ∧
    (¬(i0 = 0 ∧ i1 = 0 ∧ i2 = 0) →
      scaleGreenFunction vol stride inmax onmax nf true i0 i1 i2 d =
        scaleRows vol stride inmax d onmax) ∧
    cmptGreenFunction_killArg = false := by
  refine ⟨rfl, ?_, ?_, ?_, ?_, ?_, rfl⟩
  · intro p io hio h1 h2
    exact scaleRows_getElem?_in vol stride inmax d onmax p io hst hio h1 h2
  · intro p hout
    exact scaleRows_getElem?_out vol stride inmax d onmax p hout
  · intro p hp
    show (killLine (scaleRows vol stride inmax d onmax) nf)[p]? = _
    rw [killLine_getElem?, if_pos hp]
  · intro p hp
    show (killLine (scaleRows vol stride inmax d onmax) nf)[p]? = _
    rw [killLine_getElem?, if_neg (by omega)]
  · intro hne
    show (if i0 = 0 ∧ i1 = 0 ∧ i2 = 0 then
        killLine (scaleRows vol stride inmax d onmax) nf
      else scaleRows vol stride inmax d onmax) = scaleRows vol stride inmax d onmax
    rw [if_neg hne]

/-- Closed instance of the Green scaling: a one line, two scalar buffer with
volume factor 3 is scaled pointwise. -/
theorem c7_scale_green_function_witness :
    (scaleRows 3 2 2 [5, 7] 1)[0]? = (fun x => x * 3) <$> ([(5 : Rat), 7])[0]? :=
  (c7_scale_green_function 3 2 2 1 1 0 0 0 [5, 7] (by decide)).2.1 0 0
    (by decide) (by decide) (by decide)

/-! ## Transpose round trip (SwitchTopo_a2a.cpp, execute)

The model below follows SwitchTopo_a2a on a single process: the
sub-communicator has one rank, every block is a self block and both MPI
exchange calls degenerate to a plain copy of the staging region.  Buffers are
lists of Nat labels (a pack/exchange/unpack only moves values, and memset
writes the zero label). -/

/-- Triple of per-direction Nat quantities (sizes, indices, counts). -/
structure N3 where
  n0 : Nat
  n1 : Nat
  n2 : Nat
deriving DecidableEq, Repr

/-- Component along direction id, taken modulo 3. -/
def N3.get (n : N3) (id : Nat) : Nat :=
  match id % 3 with
  | 0 => n.n0
  | 1 => n.n1
  | _ => n.n2

/-- Modelled from the spec (the localIndex helper of defines.hpp is not under
src/): flat memory index of the point whose coordinates (i0, i1, i2) are given
along the axes (axsrc, axsrc+1, axsrc+2), in a memory block whose fast axis is
axtrg with line sizes given by size and nf scalars interleaved along the fast
axis (spec sections 3 and 4.3).  Every call of the modelled execution uses
axsrc = axtrg. -/
def localIndex (axsrc i0 i1 i2 axtrg : Nat) (size : N3) (nf : Nat) : Nat :=
  let dax0 := (3 + axsrc - axtrg % 3) % 3
  let i : N3 := ⟨i0, i1, i2⟩
  i.get dax0 * nf
    + size.get axtrg * nf * (i.get (dax0 + 1) + size.get (axtrg + 1) * i.get (dax0 + 2))

/-- Modelled from the spec (the localSplit helper of defines.hpp is not under
src/): split a flat block id into per-direction block indices, fastest
direction first (spec section 4.3; execute always calls it with axis 0 and
nf = 1). -/
def localSplit (bid : Nat) (n : N3) : N3 :=
  ⟨bid % n.n0, (bid / n.n0) % n.n1, bid / (n.n0 * n.n1)⟩

/-- One direction of Topology::cmpt_intersect_id (Topology.cpp lines 158-176):
scan the local indices i, compute the global index in the other topology
oid = startId + i + shift, keep the last i with oid <= 0 as start and the
last i with oid < onglob as end + 1.  startId is the global start of the
process (0 on a single process). -/
def cmpt_intersect_dir (nloc : Nat) (startId shift onglob : Int) : Int × Int :=
  (List.range nloc).foldl
    (fun se i =>
      let oid := startId + (i : Int) + shift
      ((if oid ≤ 0 then (i : Int) else se.1),
       (if oid < onglob then (i : Int) + 1 else se.2)))
    (0, 0)

/-- Modelled from the spec (cmpt_blockIndexes of the older SwitchTopo
interface is not under src/): number of blocks covering a shared-zone extent,
the last block being partial when the block extent does not divide it
(spec section 4.3). -/
def nBlockDir (extent nByBlock : Nat) : Nat :=
  extent / nByBlock + (if extent % nByBlock = 0 then 0 else 1)

/-- Modelled from the spec (cmpt_blockSize of the older SwitchTopo interface
is not under src/): per-direction size of block ib, the full block extent
except for the trailing partial block (spec section 4.3). -/
def blockSizeDir (extent nByBlock ib : Nat) : Nat :=
  min nByBlock (extent - ib * nByBlock)

/-- Pad a size in doubles up to the next multiple of the alignment in
doubles. -/
def padTo (align x : Nat) : Nat :=
  if x % align = 0 then x else x + (align - x % align)

/-- Modelled from the spec (get_blockMemSize of the older SwitchTopo
interface used by SwitchTopo_a2a.cpp line 319 is not under src/): the common
padded memory size of one block, the product over the directions of
(nByBlock[id] + exSize[id] % 2) times nf, padded to the alignment (cf. the
performance print of SwitchTopo_nb.cpp lines 216-217). -/
def blockMemSize (nByBlock exPar : N3) (nf alignDoubles : Nat) : Nat :=
  padTo alignDoubles
    ((nByBlock.n0 + exPar.n0) * (nByBlock.n1 + exPar.n1) * (nByBlock.n2 + exPar.n2) * nf)

/-- Staging offset of a block from SwitchTopo_a2a::setup_buffers
(SwitchTopo_a2a.cpp lines 261-271): the sum of the counts of every rank below
the destination rank of the block.  Two blocks with the same destination rank
receive the same offset. -/
def a2a_sendOffset (counts : List Nat) (destRank : List Nat) (ib : Nat) : Nat :=
  bufOffset counts (destRank.getD ib 0)

/-- Pack loop of SwitchTopo_a2a::execute (SwitchTopo_a2a.cpp lines 550-584):
enumerate the send blocks, split the flat block id, compute the start of the
block inside the local field, then copy line by line runs of
blockSize[ax0] * nf scalars from the field into the staging region of the
block.  The field strides come from the local array inloc whose initialization
is commented out in this revision (lines 502-503); the model takes them from
the caller, which passes the padded sizes nmem used by the non-blocking
variant (SwitchTopo_nb.cpp lines 424-425), the reading most favourable to the
code. -/
def a2a_pack (ax0 : Nat) (nBlock istart nByBlock : N3) (bSize : Nat → N3)
    (offset : Nat → Nat) (inloc : N3) (nf : Nat) (v : List Nat)
    (buf0 : List Nat) : List Nat :=
  (List.range (nBlock.n0 * nBlock.n1 * nBlock.n2)).foldl (fun buf bid =>
    let ib := localSplit bid nBlock
    let ax1 := (ax0 + 1) % 3
    let ax2 := (ax0 + 2) % 3
    let loci0 := istart.get ax0 + ib.get ax0 * nByBlock.get ax0
    let loci1 := istart.get ax1 + ib.get ax1 * nByBlock.get ax1
    let loci2 := istart.get ax2 + ib.get ax2 * nByBlock.get ax2
    let vbase := localIndex ax0 loci0 loci1 loci2 ax0 inloc nf
    (List.range ((bSize bid).get ax1 * (bSize bid).get ax2)).foldl (fun buf id =>
      let i2 := id / (bSize bid).get ax1
      let i1 := id % (bSize bid).get ax1
      let bufIdx := id * (bSize bid).get ax0 * nf
      let myIdx := localIndex ax0 0 i1 i2 ax0 inloc nf
      (List.range ((bSize bid).get ax0 * nf)).foldl (fun buf i0 =>
        buf.set (offset bid + bufIdx + i0) (v.getD (vbase + myIdx + i0) 0))
        buf)
      buf)
    buf0

/-- Exchange step of execute on a sub-communicator with a single rank
(SwitchTopo_a2a.cpp lines 595-601): both MPI_Alltoall(sendBuf[0], count, ...)
and MPI_Alltoallv with start[0] = 0 degenerate to copying count doubles from
the send staging region to the receive staging region. -/
def a2a_exchange_self (count : Nat) (send recv0 : List Nat) : List Nat :=
  (List.range count).foldl (fun recv i => recv.set i (send.getD i 0)) recv0

/-- Unpack loop of SwitchTopo_a2a::execute, nf = 1 branch
(SwitchTopo_a2a.cpp lines 619-658): enumerate the receive blocks, compute the
start of the block inside the output field and scatter the contiguous staging
lines with the output fast-axis stride. -/
def a2a_unpack (ax0 outAxis : Nat) (nBlock ostart nByBlock : N3)
    (bSize : Nat → N3) (offset : Nat → Nat) (onloc : N3) (nf : Nat)
    (recv : List Nat) (v0 : List Nat) : List Nat :=
  (List.range (nBlock.n0 * nBlock.n1 * nBlock.n2)).foldl (fun v bid =>
    let ibv := localSplit bid nBlock
    let ax1 := (ax0 + 1) % 3
    let ax2 := (ax0 + 2) % 3
    let loci0 := ostart.get ax0 + ibv.get ax0 * nByBlock.get ax0
    let loci1 := ostart.get ax1 + ibv.get ax1 * nByBlock.get ax1
    let loci2 := ostart.get ax2 + ibv.get ax2 * nByBlock.get ax2
    let vbase := localIndex ax0 loci0 loci1 loci2 outAxis onloc nf
    let stride := localIndex ax0 1 0 0 outAxis onloc nf
    (List.range ((bSize bid).get ax1 * (bSize bid).get ax2)).foldl (fun v id =>
      let i2 := id / (bSize bid).get ax1
      let i1 := id % (bSize bid).get ax1
      let bufIdx := id * (bSize bid).get ax0 * nf
      let myIdx := localIndex ax0 0 i1 i2 outAxis onloc nf
      (List.range ((bSize bid).get ax0)).foldl (fun v i0 =>
        v.set (vbase + myIdx + i0 * stride) (recv.getD (offset bid + bufIdx + i0) 0))
        v)
      v)
    v0

/-- SwitchTopo_a2a::execute on a single-process sub-communicator
(SwitchTopo_a2a.cpp lines 436-681): pack the send blocks into a zero staging
region, exchange, zero the field memory over the output locmemsize, and unpack
the receive blocks. -/
def a2a_execute_self (ax0 outAxis : Nat) (sendNBlock recvNBlock istart ostart nByBlock : N3)
    (sBSize rBSize : Nat → N3) (sOffset rOffset : Nat → Nat) (inloc onloc : N3)
    (nf count bufsize outMemSize : Nat) (v : List Nat) : List Nat :=
  let send := a2a_pack ax0 sendNBlock istart nByBlock sBSize sOffset inloc nf v
    (List.replicate bufsize 0)
  let recv := a2a_exchange_self count send (List.replicate bufsize 0)
  a2a_unpack ax0 outAxis recvNBlock ostart nByBlock rBSize rOffset onloc nf recv
    (List.replicate outMemSize 0)

/-! The concrete failing configuration: one process, topo_in = topo_out with
fast axis 0, nglob = (5, 2, 2), real data (nf = 1), alignment 16 bytes
(2 doubles).  Derived via the embedded constructor pieces (see
c1_instance_consistent below): istart = ostart = (0,0,0), shared extents
(5, 2, 2), block extents nByBlock = (4, 2, 2) (the odd total extent 5 is
lowered to 4 on the single process, which is last in both topologies), hence
2 send and 2 receive blocks of sizes (4,2,2) and (1,2,2), both destined to
rank 0, blockMem = 20 doubles, counts = (40), staging offsets (0, 0) for both
blocks, exchange count 40, padded sizes nmem = (6, 2, 2), locmemsize 24. -/

/-- Per-direction block sizes of the two blocks of the failing instance. -/
def c1_bSize (bid : Nat) : N3 :=
  ⟨blockSizeDir 5 4 (localSplit bid ⟨2, 1, 1⟩).n0, blockSizeDir 2 2 0, blockSizeDir 2 2 0⟩

/-- Staging offset of the two blocks of the failing instance: both blocks go
to rank 0, so setup_buffers gives both the offset 0. -/
def c1_offset (bid : Nat) : Nat :=
  a2a_sendOffset (a2a_counts 1 20 [0, 0]) [0, 0] bid

/-- Forward execution of the failing instance. -/
def c1_forward (v : List Nat) : List Nat :=
  a2a_execute_self 0 0 ⟨2, 1, 1⟩ ⟨2, 1, 1⟩ ⟨0, 0, 0⟩ ⟨0, 0, 0⟩ ⟨4, 2, 2⟩
    c1_bSize c1_bSize c1_offset c1_offset ⟨6, 2, 2⟩ ⟨6, 2, 2⟩ 1 40 40 24 v

/-- Backward execution of the failing instance: execute with the roles of the
two topologies swapped (SwitchTopo_a2a.cpp lines 507-529); both topologies of
the instance coincide, so the swapped arrays equal the forward ones. -/
def c1_backward (v : List Nat) : List Nat :=
  a2a_execute_self 0 0 ⟨2, 1, 1⟩ ⟨2, 1, 1⟩ ⟨0, 0, 0⟩ ⟨0, 0, 0⟩ ⟨4, 2, 2⟩
    c1_bSize c1_bSize c1_offset c1_offset ⟨6, 2, 2⟩ ⟨6, 2, 2⟩ 1 40 40 24 v

/-- Forward transpose followed by backward transpose, no transform between. -/
def c1_roundtrip (v : List Nat) : List Nat :=
  c1_backward (c1_forward v)

/-- Input buffer of the failing instance, laid out with the padded fast-axis
line of 6 cells (5 data cells and 1 padding cell per line): the data cell
(i0, i1, i2) holds the label 1 + i0 + 5*(i1 + 2*i2) and the padding holds 0. -/
def c1_vInit : List Nat :=
  [1, 2, 3, 4, 5, 0, 6, 7, 8, 9, 10, 0,
   11, 12, 13, 14, 15, 0, 16, 17, 18, 19, 20, 0]

/-- Consistency of the concrete instance with the embedded constructor
computations: padded sizes, intersections, block extents, counts and the
uniform-exchange flag all match the hard-wired values of the instance. -/
theorem c1_instance_consistent :
    cmpt_sizes_axis 5 1 16 = 6 ∧
    cmpt_intersect_dir 5 0 0 5 = (0, 5) ∧
    cmpt_intersect_dir 2 0 0 2 = (0, 2) ∧
    a2a_nByBlock [⟨5, 5, true, true⟩] = 4 ∧
    a2a_nByBlock [⟨2, 2, true, true⟩] = 2 ∧
    nBlockDir 5 4 = 2 ∧
    nBlockDir 2 2 = 1 ∧
    blockMemSize ⟨4, 2, 2⟩ ⟨1, 0, 0⟩ 1 2 = 20 ∧
    a2a_counts 1 20 [0, 0] = [40] ∧
    a2a_is_all2all 1 [40] [40] = true ∧
    c1_offset 0 = 0 ∧ c1_offset 1 = 0 ∧
    c1_bSize 0 = ⟨4, 2, 2⟩ ∧ c1_bSize 1 = ⟨1, 2, 2⟩ := by
  have h04 : cppGcd 0 4 = 4 := by
    rw [cppGcd]
    norm_num
  have h44 : cppGcd 4 4 = 4 := by
    rw [cppGcd]
    norm_num
    exact h04
  have h02 : cppGcd 0 2 = 2 := by
    rw [cppGcd]
    norm_num
  have h22 : cppGcd 2 2 = 2 := by
    rw [cppGcd]
    norm_num
    exact h02
  have hn4 : a2a_nByBlock [⟨5, 5, true, true⟩] = 4 := by
    simp only [a2a_nByBlock, a2a_exSize, a2a_adjIsend, a2a_adjOsend, List.map,
      List.sum_cons, List.sum_nil]
    norm_num [show ((5 : Int).tmod 2) = 1 by decide, h44]
  have hn2 : a2a_nByBlock [⟨2, 2, true, true⟩] = 2 := by
    simp only [a2a_nByBlock, a2a_exSize, a2a_adjIsend, a2a_adjOsend, List.map,
      List.sum_cons, List.sum_nil]
    norm_num [show ((2 : Int).tmod 2) = 0 by decide, h22]
  exact ⟨by decide, by decide, by decide, hn4, hn2, by decide, by decide,
    by decide, by decide, by decide, by decide, by decide, by decide, by decide⟩

/-- C1: the forward-then-backward a2a transpose of the failing instance does
not reproduce the buffer: both blocks share the staging offset 0, so the pack
of the second block overwrites the first fast-axis line of the first one, and
after the round trip the cell (0,0,0) holds the label of cell (4,0,0). -/
theorem c1_roundtrip_not_identity :
    c1_roundtrip c1_vInit ≠ c1_vInit ∧
    (c1_roundtrip c1_vInit)[0]? = some 5 ∧
    c1_vInit[0]? = some 1 := by
  refine ⟨by decide, by decide, by decide⟩

end Flups
